import Mathlib

/-!
Verification of the asynchronous task bridge of `rotki-sync`
(`internal/async`: `TaskManager`, `ExecuteAsync` and helpers) and of the
two balance-snapshot trigger predicates
(`internal/services/blockchain.go` and `internal/blockchain` /
`internal/utils`).

The Go code is shallowly embedded: the `TaskManager` becomes a state
record (`TaskManagerState`) holding the pending-task map's key set, a log
of every value sent to a delivery channel, and the `pollingActive` flag;
one poller tick (`checkTasks`) becomes a pure state transformer
parameterised by the outcome of the poll-list HTTP request and by the
outcome of each per-task result fetch.  JSON payloads (`json.RawMessage`)
are embedded as `Option JVal` — `none` is the nil/empty byte slice, and
`some v` a byte slice that parses to the JSON value `v`.
-/

namespace RotkiSync

/-- JSON values, embedding the payloads that `encoding/json` moves around
(`json.RawMessage`, `map[string]interface{}`). Object fields are an
association list; after a Go marshal/unmarshal round trip keys are unique
and only the first binding of a key is ever observed. -/
inductive JVal : Type where
  | null : JVal
  | bool (b : Bool) : JVal
  | num (n : Int) : JVal
  | str (s : String) : JVal
  | arr (elems : List JVal) : JVal
  | obj (fields : List (String × JVal)) : JVal

/-- Embeds `models.TaskStatus` (src/unnamed/part_007): "pending" / "completed" /
"not-found". -/
inductive TaskStatus : Type where
  | pending : TaskStatus
  | completed : TaskStatus
  | notFound : TaskStatus
deriving DecidableEq

/-- Embeds `models.APIResponse[json.RawMessage]` — the Outcome Envelope sent
through a delivery channel: raw result bytes plus an optional message. -/
structure Envelope where
  result : Option JVal
  message : String

/-- Outcome of the per-task result fetch `tm.client.Get("/tasks/<id>")`
in `TaskManager.fetchTaskResult`: either a transport-level error, or a
decoded `models.APIResponse[models.TaskResult]` (status, outcome bytes,
outer message). -/
inductive FetchOutcome : Type where
  | transportErr (err : String) : FetchOutcome
  | fetched (status : TaskStatus) (outcome : Option JVal) (message : String) : FetchOutcome

/-- State of `async.TaskManager` (src/unnamed/part_005): the key set of
`activeTasks` (a Go map, hence duplicate-free), the ordered log of every
envelope sent to a task's delivery channel, and the `pollingActive` flag.
Each map value is a fresh capacity-one channel; `delivered` records each
send `resultChan <- envelope` as a `(taskID, envelope)` event. -/
structure TaskManagerState where
  activeTasks : List Int
  delivered : List (Int × Envelope)
  pollingActive : Bool

/-- The envelope `TaskManager.fetchTaskResult` sends for task `taskID`
given the fetch outcome: on transport error an empty result with
message `"Failed to fetch task result: <err>"`; on status "not-found" an
empty result with message `"Task <id> not found"`; otherwise the fetched
outcome bytes and the response's message. -/
def envelopeFor (taskID : Int) (o : FetchOutcome) : Envelope :=
  match o with
  | .transportErr err =>
      { result := none, message := "Failed to fetch task result: " ++ err }
  | .fetched status outcome message =>
      if status = TaskStatus.notFound then
        { result := none, message := "Task " ++ toString taskID ++ " not found" }
      else
        { result := outcome, message := message }

/-- Embeds `TaskManager.fetchTaskResult`: send exactly one envelope to the
task's channel, close it, and delete the task from `activeTasks`. -/
def fetchTaskResult (taskID : Int) (o : FetchOutcome) (s : TaskManagerState) :
    TaskManagerState :=
  { s with
    delivered := s.delivered ++ [(taskID, envelopeFor taskID o)],
    activeTasks := s.activeTasks.erase taskID }

/-- Embeds `TaskManager.Stop`: signal the poller to stop and clear
`pollingActive` (sequential projection; the stop-channel close is
modelled explicitly in the concurrent model below). -/
def Stop (s : TaskManagerState) : TaskManagerState :=
  { s with pollingActive := false }

/-- The loop in `TaskManager.checkTasks` over the completed task ids
reported by the poll-list request: for each id that is currently in
`activeTasks`, fetch its result and deliver; ids without a pending entry
are skipped. -/
def runCompleted (fetch : Int → FetchOutcome) (completed : List Int)
    (s : TaskManagerState) : TaskManagerState :=
  completed.foldl
    (fun st tid =>
      if tid ∈ st.activeTasks then fetchTaskResult tid (fetch tid) st else st) s

/-- Embeds `TaskManager.checkTasks`, one poll tick: if no task is pending, stop;
otherwise issue the poll-list request — `poll = none` models a transport
failure (logged, nothing else happens this tick), `poll = some completed`
a successful response listing the completed task ids. `fetch` gives the
outcome of the per-task result fetch for each id. -/
def checkTasks (fetch : Int → FetchOutcome) (poll : Option (List Int))
    (s : TaskManagerState) : TaskManagerState :=
  if s.activeTasks = [] then Stop s
  else
    match poll with
    | none => s
    | some completed => runCompleted fetch completed s

/-- Embeds `TaskManager.RegisterTask`: create a fresh delivery channel, insert
the task into `activeTasks` (Go map assignment: key set gains `taskID` if
absent), and mark polling active (starting the poller if it was not
running). -/
def RegisterTask (taskID : Int) (s : TaskManagerState) : TaskManagerState :=
  { s with
    activeTasks :=
      if taskID ∈ s.activeTasks then s.activeTasks else s.activeTasks ++ [taskID],
    pollingActive := true }

/-- The sub-log of deliveries that went to task `t`'s channel. -/
def deliveriesTo (t : Int) (log : List (Int × Envelope)) : List (Int × Envelope) :=
  log.filter (fun e => e.1 == t)

theorem deliveriesTo_append (t : Int) (l₁ l₂ : List (Int × Envelope)) :
    deliveriesTo t (l₁ ++ l₂) = deliveriesTo t l₁ ++ deliveriesTo t l₂ := by
  simp [deliveriesTo]

theorem deliveriesTo_single_ne (t u : Int) (h : u ≠ t) (e : Envelope) :
    deliveriesTo t [(u, e)] = [] := by
  have hb : (u == t) = false := beq_eq_false_iff_ne.mpr h
  simp [deliveriesTo, List.filter, hb]

theorem deliveriesTo_single_eq (t : Int) (e : Envelope) :
    deliveriesTo t [(t, e)] = [(t, e)] := by
  simp [deliveriesTo, List.filter]

/-- A `runCompleted` pass never touches a task that has no pending entry:
its delivery sub-log is unchanged and it stays out of `activeTasks`. -/
theorem runCompleted_not_mem (fetch : Int → FetchOutcome) (completed : List Int)
    (s : TaskManagerState) (t : Int) (ht : t ∉ s.activeTasks) :
    deliveriesTo t (runCompleted fetch completed s).delivered =
      deliveriesTo t s.delivered ∧
    t ∉ (runCompleted fetch completed s).activeTasks := by
  induction completed generalizing s with
  | nil => exact ⟨rfl, ht⟩
  | cons c cs ih =>
      by_cases hc : c ∈ s.activeTasks
      · have hct : c ≠ t := fun h => ht (h ▸ hc)
        have hstep :
            runCompleted fetch (c :: cs) s =
              runCompleted fetch cs (fetchTaskResult c (fetch c) s) := by
          simp [runCompleted, List.foldl, hc]
        rw [hstep]
        have ht' : t ∉ (fetchTaskResult c (fetch c) s).activeTasks := by
          intro hmem
          exact ht (List.mem_of_mem_erase hmem)
        have := ih (fetchTaskResult c (fetch c) s) ht'
        refine ⟨?_, this.2⟩
        rw [this.1]
        simp [fetchTaskResult, deliveriesTo_append, deliveriesTo_single_ne t c hct]
      · have hstep :
            runCompleted fetch (c :: cs) s = runCompleted fetch cs s := by
          simp [runCompleted, List.foldl, hc]
        rw [hstep]
        exact ih s ht

/-- Over one `runCompleted` pass, a pending task reported completed
receives exactly the one envelope `envelopeFor t (fetch t)` and is
removed from `activeTasks`. Needs the key set to be duplicate-free,
which holds because `activeTasks` is a Go map. -/
theorem runCompleted_mem (fetch : Int → FetchOutcome) (completed : List Int)
    (s : TaskManagerState) (t : Int) (hnd : s.activeTasks.Nodup)
    (ht : t ∈ s.activeTasks) (hc : t ∈ completed) :
    deliveriesTo t (runCompleted fetch completed s).delivered =
      deliveriesTo t s.delivered ++ [(t, envelopeFor t (fetch t))] ∧
    t ∉ (runCompleted fetch completed s).activeTasks := by
  induction completed generalizing s with
  | nil => cases hc
  | cons c cs ih =>
      by_cases hct : c = t
      · subst hct
        have hstep :
            runCompleted fetch (c :: cs) s =
              runCompleted fetch cs (fetchTaskResult c (fetch c) s) := by
          simp [runCompleted, List.foldl, ht]
        rw [hstep]
        have hout : c ∉ (fetchTaskResult c (fetch c) s).activeTasks := by
          simp only [fetchTaskResult]
          exact hnd.not_mem_erase
        have hrest := runCompleted_not_mem fetch cs (fetchTaskResult c (fetch c) s) c hout
        refine ⟨?_, hrest.2⟩
        rw [hrest.1]
        simp [fetchTaskResult, deliveriesTo_append, deliveriesTo_single_eq]
      · have ht' : t ∈ cs := by
          cases List.mem_cons.mp hc with
          | inl h => exact absurd h.symm hct
          | inr h => exact h
        by_cases hcm : c ∈ s.activeTasks
        · have hstep :
              runCompleted fetch (c :: cs) s =
                runCompleted fetch cs (fetchTaskResult c (fetch c) s) := by
            simp [runCompleted, List.foldl, hcm]
          rw [hstep]
          have hnd' : (fetchTaskResult c (fetch c) s).activeTasks.Nodup := by
            simpa [fetchTaskResult] using hnd.erase c
          have htm : t ∈ (fetchTaskResult c (fetch c) s).activeTasks := by
            simp only [fetchTaskResult]
            exact List.mem_erase_of_ne (fun h => hct h.symm) |>.mpr ht
          have := ih (fetchTaskResult c (fetch c) s) hnd' htm ht'
          refine ⟨?_, this.2⟩
          rw [this.1]
          simp [fetchTaskResult, deliveriesTo_append,
            deliveriesTo_single_ne t c hct]
        · have hstep :
              runCompleted fetch (c :: cs) s = runCompleted fetch cs s := by
            simp [runCompleted, List.foldl, hcm]
          rw [hstep]
          exact ih s hnd ht ht'

theorem data_append (s t : String) : (s ++ t).data = s.data ++ t.data := rfl

theorem ne_empty_of_head (s : String) (c : Char) (hs : s.data.head? = some c) :
    s ≠ "" := fun h => by simp [h] at hs

theorem ne_of_head_ne (s t : String) (c d : Char) (hs : s.data.head? = some c)
    (ht : t.data.head? = some d) (hcd : c ≠ d) : s ≠ t := fun h =>
  hcd (Option.some.inj (by rw [← hs, ← ht, h]))

theorem head_transport_failure_message (e : String) :
    ("Failed to fetch task result: " ++ e).data.head? = some 'F' := by
  rw [data_append]; rfl

theorem head_not_found_message (x : String) :
    ("Task " ++ x ++ " not found").data.head? = some 'T' := by
  rw [data_append, data_append]; rfl

/-- **C1.** For every task id `t` with a Pending Task Entry, once a poll
tick reports `t` as completed, exactly one Outcome Envelope is delivered
to `t`'s delivery slot — regardless of the per-task result fetch outcome
(the theorem quantifies over every `fetch`) — and `t` is removed from the
pending map; a task without a pending entry receives no delivery at all,
so no entry ever receives a second delivery. -/
theorem claim_c1_delivery_exactly_once (fetch : Int → FetchOutcome)
    (completed : List Int) (s : TaskManagerState) (t : Int)
    (hnd : s.activeTasks.Nodup) :
    (t ∈ s.activeTasks → t ∈ completed →
       deliveriesTo t (checkTasks fetch (some completed) s).delivered =
         deliveriesTo t s.delivered ++ [(t, envelopeFor t (fetch t))] ∧
       t ∉ (checkTasks fetch (some completed) s).activeTasks) ∧
    (t ∉ s.activeTasks →
       deliveriesTo t (checkTasks fetch (some completed) s).delivered =
         deliveriesTo t s.delivered ∧
       t ∉ (checkTasks fetch (some completed) s).activeTasks) := by
  by_cases hs : s.activeTasks = []
  · constructor
    · intro ht
      rw [hs] at ht
      cases ht
    · intro ht
      simp only [checkTasks, hs, if_pos]
      exact ⟨rfl, fun hmem => ht (by simp [Stop, hs] at hmem)⟩
  · have hck : checkTasks fetch (some completed) s = runCompleted fetch completed s := by
      simp [checkTasks, hs]
    rw [hck]
    exact ⟨fun ht hc => runCompleted_mem fetch completed s t hnd ht hc,
           fun ht => runCompleted_not_mem fetch completed s t ht⟩

/-- A concrete fetch oracle: every per-task result fetch fails at the
transport level. -/
def fetch₀ : Int → FetchOutcome := fun _ => FetchOutcome.transportErr "boom"

/-- A concrete registry state with tasks 5 and 7 pending and the poller
active. -/
def st₀ : TaskManagerState :=
  { activeTasks := [5, 7], delivered := [], pollingActive := true }

theorem claim_c1_delivery_exactly_once_witness :
    deliveriesTo 5 (checkTasks fetch₀ (some [5]) st₀).delivered =
      deliveriesTo 5 st₀.delivered ++ [(5, envelopeFor 5 (fetch₀ 5))] ∧
    5 ∉ (checkTasks fetch₀ (some [5]) st₀).activeTasks :=
  (claim_c1_delivery_exactly_once fetch₀ [5] st₀ 5 (by decide)).1
    (by decide) (by decide)

/-- **C4.** A tick whose poll-list transport request fails leaves the
registry state completely unchanged: no entry is delivered to or removed,
nothing is surfaced to a waiting caller, and the same pending entries are
there to be polled on the next tick. -/
theorem claim_c4_poll_failure_noop (fetch : Int → FetchOutcome)
    (s : TaskManagerState) (h : s.activeTasks ≠ []) :
    checkTasks fetch none s = s := by
  simp [checkTasks, h]

theorem claim_c4_poll_failure_noop_witness :
    checkTasks fetch₀ none st₀ = st₀ :=
  claim_c4_poll_failure_noop fetch₀ st₀ (by decide)

/-- **C5.** In a tick that reports pending tasks `t` and `u` completed,
where `t`'s result fetch fails at the transport level and `u`'s fetch
reports status "not-found": each of `t` and `u` receives exactly one
failure envelope with empty result bytes and a non-empty message, the two
messages are distinguishable by content, the failure for `t` does not
prevent delivery for `u`, and both entries are removed. -/
theorem claim_c5_fetch_failure_isolated
    (fetch : Int → FetchOutcome) (completed : List Int) (s : TaskManagerState)
    (t u : Int) (e : String) (o : Option JVal) (m : String)
    (hnd : s.activeTasks.Nodup) (ht : t ∈ s.activeTasks) (hu : u ∈ s.activeTasks)
    (htc : t ∈ completed) (huc : u ∈ completed)
    (hft : fetch t = FetchOutcome.transportErr e)
    (hfu : fetch u = FetchOutcome.fetched TaskStatus.notFound o m) :
    deliveriesTo t (checkTasks fetch (some completed) s).delivered =
      deliveriesTo t s.delivered ++
        [(t, { result := none, message := "Failed to fetch task result: " ++ e })] ∧
    deliveriesTo u (checkTasks fetch (some completed) s).delivered =
      deliveriesTo u s.delivered ++
        [(u, { result := none, message := "Task " ++ toString u ++ " not found" })] ∧
    ("Failed to fetch task result: " ++ e) ≠ "" ∧
    ("Task " ++ toString u ++ " not found") ≠ "" ∧
    ("Failed to fetch task result: " ++ e) ≠ ("Task " ++ toString u ++ " not found") ∧
    t ∉ (checkTasks fetch (some completed) s).activeTasks ∧
    u ∉ (checkTasks fetch (some completed) s).activeTasks := by
  have hs : s.activeTasks ≠ [] := List.ne_nil_of_mem ht
  have hck : checkTasks fetch (some completed) s = runCompleted fetch completed s := by
    simp [checkTasks, hs]
  have henvt : envelopeFor t (fetch t) =
      { result := none, message := "Failed to fetch task result: " ++ e } := by
    rw [hft]; rfl
  have henvu : envelopeFor u (fetch u) =
      { result := none, message := "Task " ++ toString u ++ " not found" } := by
    rw [hfu]; simp [envelopeFor]
  have hmt := runCompleted_mem fetch completed s t hnd ht htc
  have hmu := runCompleted_mem fetch completed s u hnd hu huc
  rw [hck]
  refine ⟨by rw [hmt.1, henvt], by rw [hmu.1, henvu], ?_, ?_, ?_, hmt.2, hmu.2⟩
  · exact ne_empty_of_head _ 'F' (head_transport_failure_message e)
  · exact ne_empty_of_head _ 'T' (head_not_found_message _)
  · exact ne_of_head_ne _ _ 'F' 'T' (head_transport_failure_message e)
      (head_not_found_message _) (by decide)

/-- A concrete fetch oracle: task 5's fetch fails at transport level,
every other fetch reports status "not-found". -/
def fetch₁ : Int → FetchOutcome := fun i =>
  if i = 5 then FetchOutcome.transportErr "boom"
  else FetchOutcome.fetched TaskStatus.notFound none ""

theorem claim_c5_fetch_failure_isolated_witness :
    deliveriesTo 5 (checkTasks fetch₁ (some [5, 7]) st₀).delivered =
      deliveriesTo 5 st₀.delivered ++
        [(5, { result := none, message := "Failed to fetch task result: " ++ "boom" })] ∧
    deliveriesTo 7 (checkTasks fetch₁ (some [5, 7]) st₀).delivered =
      deliveriesTo 7 st₀.delivered ++
        [(7, { result := none, message := "Task " ++ toString (7 : Int) ++ " not found" })] ∧
    ("Failed to fetch task result: " ++ "boom") ≠ "" ∧
    ("Task " ++ toString (7 : Int) ++ " not found") ≠ "" ∧
    ("Failed to fetch task result: " ++ "boom") ≠
      ("Task " ++ toString (7 : Int) ++ " not found") ∧
    5 ∉ (checkTasks fetch₁ (some [5, 7]) st₀).activeTasks ∧
    7 ∉ (checkTasks fetch₁ (some [5, 7]) st₀).activeTasks :=
  claim_c5_fetch_failure_isolated fetch₁ [5, 7] st₀ 5 7 "boom" none ""
    (by decide) (by decide) (by decide) (by decide) (by decide) rfl rfl

/-! ### Async Request Façade: GET endpoint preparation (C2)

Endpoints are Go strings; they are embedded as their character sequence
(`List Char` — rotki endpoints are ASCII, so Go's byte indexing and
character indexing agree). -/

/-- Embeds `prepareAsyncEndpoint` (src/unnamed/part_005): unless the endpoint is
empty or already ends in `'?'`, append `'?'`; then append
`"async_query=true"`. -/
def prepareAsyncEndpoint (endpoint : List Char) : List Char :=
  (if endpoint ≠ [] ∧ endpoint.getLast? ≠ some '?' then endpoint ++ ['?']
   else endpoint) ++ "async_query=true".toList

/-- The query string of a URL: everything after the first `'?'`, if any.
This and the two definitions below formalise the claim's vocabulary
("the endpoint's query parameters") with the standard URL reading; they
embed no repository code. -/
def queryPart : List Char → Option (List Char)
  | [] => none
  | c :: cs => if c = '?' then some cs else queryPart cs

/-- Parse one `key=value` query segment. -/
def parseParam (seg : List Char) : List Char × List Char :=
  (seg.takeWhile (fun c => c ≠ '='), (seg.dropWhile (fun c => c ≠ '=')).drop 1)

/-- The query-parameter list of a URL: split the query string on `'&'`,
drop empty segments, parse each segment as `key=value`. -/
def queryParams (url : List Char) : List (List Char × List Char) :=
  match queryPart url with
  | none => []
  | some q => ((q.splitOn '&').filter (fun seg => seg ≠ [])).map parseParam

theorem queryPart_eq_none (l : List Char) (h : '?' ∉ l) : queryPart l = none := by
  induction l with
  | nil => rfl
  | cons c cs ih =>
      have hne : ('?' : Char) ≠ c := List.ne_of_not_mem_cons h
      have hc : ¬ (c = '?') := fun hq => hne hq.symm
      show (if c = '?' then some cs else queryPart cs) = none
      rw [if_neg hc]
      exact ih (List.not_mem_of_not_mem_cons h)

theorem queryPart_append (l r : List Char) (h : '?' ∉ l) :
    queryPart (l ++ '?' :: r) = some r := by
  induction l with
  | nil => simp [queryPart]
  | cons c cs ih =>
      have hne : ('?' : Char) ≠ c := List.ne_of_not_mem_cons h
      have hc : ¬ (c = '?') := fun hq => hne hq.symm
      show (if c = '?' then some (cs ++ '?' :: r) else queryPart (cs ++ '?' :: r)) = some r
      rw [if_neg hc]
      exact ih (List.not_mem_of_not_mem_cons h)

/-- **C2, counterexample.** For the endpoint `"/x?a=1"`, which already
carries a query string, the prepared endpoint is
`"/x?a=1?async_query=true"`: its query string is `"a=1?async_query=true"`,
a single parameter `a = "1?async_query=true"`, not the original
parameters plus `async_query=true`. -/
theorem claim_c2_counterexample :
    ¬ (queryParams (prepareAsyncEndpoint ("/x?a=1".toList)) =
       queryParams ("/x?a=1".toList) ++ [("async_query".toList, "true".toList)]) := by
  decide

/-- **C2, amended.** For every non-empty endpoint that carries no query
string at all (no `'?'` occurs in it), the prepared endpoint's
query-parameter set equals the original endpoint's (empty) parameters
plus `async_query=true`. When the endpoint already contains a query
string the code instead appends a second `'?'`, and `async_query=true`
does not become a query parameter (see the counterexample). -/
theorem claim_c2_amended (endpoint : List Char) (h1 : endpoint ≠ [])
    (h2 : '?' ∉ endpoint) :
    queryParams (prepareAsyncEndpoint endpoint) =
      queryParams endpoint ++ [("async_query".toList, "true".toList)] := by
  have hlast : endpoint.getLast? ≠ some '?' := by
    intro hq
    rw [List.getLast?_eq_getLast_of_ne_nil h1] at hq
    have := List.getLast_mem h1
    rw [Option.some.inj hq] at this
    exact h2 this
  have hcond : endpoint ≠ [] ∧ endpoint.getLast? ≠ some '?' := ⟨h1, hlast⟩
  have hprep : prepareAsyncEndpoint endpoint =
      endpoint ++ '?' :: "async_query=true".toList := by
    simp only [prepareAsyncEndpoint, if_pos hcond, List.append_assoc,
      List.singleton_append]
  rw [hprep]
  have hqp := queryPart_append endpoint ("async_query=true".toList) h2
  have hnone := queryPart_eq_none endpoint h2
  simp only [queryParams, hqp, hnone]
  decide

theorem claim_c2_amended_witness :
    queryParams (prepareAsyncEndpoint ("/balances".toList)) =
      queryParams ("/balances".toList) ++ [("async_query".toList, "true".toList)] :=
  claim_c2_amended ("/balances".toList) (by decide) (by decide)

/-! ### Façade result decoding (C3) and request-body preparation (C10)

`encoding/json` is an external collaborator of this core; its behaviour
on the shapes used here is embedded directly: unmarshalling nil/empty
bytes fails with "unexpected end of JSON input", unmarshalling a JSON
object into `models.APIResponse[T]` reads the "result" field with `T`'s
decoder (absent field: zero value) and the "message" field as a string,
and unmarshalling a non-object into a struct is a type error. -/

/-- Embeds `models.APIResponse[T]` (src/internal/models/common.go) for a typed
result `T`. (`Envelope` above is its `T = json.RawMessage` instance.) -/
structure APIResponse (T : Type) where
  result : T
  message : String

/-- How `encoding/json` treats the Go type `T`: its zero value and its
field decoder. -/
structure GoJson (T : Type) where
  zero : T
  dec : JVal → Except String T

/-- First binding of a key in a JSON object's field list (keys are
unique after a Go marshal/unmarshal round trip). -/
def lookupJ : List (String × JVal) → String → Option JVal
  | [], _ => none
  | (k', v') :: rest, k => if k' = k then some v' else lookupJ rest k

/-- Decode the optional "message" field of an `APIResponse` object. -/
def decodeMessageField (fs : List (String × JVal)) : Except String String :=
  match lookupJ fs "message" with
  | none => .ok ""
  | some JVal.null => .ok ""
  | some (JVal.str s) => .ok s
  | some _ => .error "json: cannot unmarshal value into field message of type string"

/-- Embeds `json.Unmarshal(raw, &models.APIResponse[T]\x7b\x7d)`. -/
def unmarshalAPIResponse {T : Type} (g : GoJson T) (raw : Option JVal) :
    Except String (APIResponse T) :=
  match raw with
  | none => .error "unexpected end of JSON input"
  | some (JVal.obj fs) =>
      match lookupJ fs "result" with
      | none =>
          match decodeMessageField fs with
          | .error e => .error e
          | .ok m => .ok { result := g.zero, message := m }
      | some v =>
          match g.dec v with
          | .error e => .error e
          | .ok r =>
              match decodeMessageField fs with
              | .error e => .error e
              | .ok m => .ok { result := r, message := m }
  | some _ => .error "json: cannot unmarshal value into struct APIResponse"

/-- Embeds `waitForTaskResult` (src/unnamed/part_005), decode step: unmarshal
the delivered envelope's raw result bytes into `APIResponse[T]`; on
failure wrap the JSON error. The envelope's own `Message` field is never
consulted. -/
def waitForTaskResult {T : Type} (g : GoJson T) (rawResult : Envelope) :
    Except String (APIResponse T) :=
  match unmarshalAPIResponse g rawResult.result with
  | .error e => .error ("failed to unmarshal task result: " ++ e)
  | .ok finalResponse => .ok finalResponse

/-- Substring test: does `needle` occur as a contiguous run inside the
second argument? Used to state that a diagnostic string does not occur in
an error string. -/
def startsWithSeq : List Char → List Char → Bool
  | [], _ => true
  | _ :: _, [] => false
  | a :: as, b :: bs => a == b && startsWithSeq as bs

def containsSeq (needle : List Char) : List Char → Bool
  | [] => needle.isEmpty
  | c :: cs => startsWithSeq needle (c :: cs) || containsSeq needle cs

/-- Go's `bool` under `encoding/json`. -/
def boolJson : GoJson Bool :=
  { zero := false,
    dec := fun v =>
      match v with
      | JVal.bool b => .ok b
      | _ => .error "json: cannot unmarshal value into field result of type bool" }

/-- **C3, counterexample.** The not-found failure envelope for task 5
carries the diagnostic "Task 5 not found", but the Façade's decode step
turns it into the unmarshal error "failed to unmarshal task result:
unexpected end of JSON input": the caller does not receive the failure's
diagnostic (it occurs nowhere in the returned error), contradicting the
claim. -/
theorem claim_c3_counterexample :
    waitForTaskResult boolJson
        (envelopeFor 5 (FetchOutcome.fetched TaskStatus.notFound none "")) =
      .error "failed to unmarshal task result: unexpected end of JSON input" ∧
    (envelopeFor 5 (FetchOutcome.fetched TaskStatus.notFound none "")).message =
      "Task 5 not found" ∧
    containsSeq ("Task 5 not found".toList)
      ("failed to unmarshal task result: unexpected end of JSON input".toList) = false := by
  refine ⟨rfl, rfl, by decide⟩

/-- **C3, amended.** The decode step distinguishes decodable from
non-decodable payloads: a delivered envelope whose raw bytes form a
well-typed `APIResponse` object is returned without error, with any
remote-reported diagnostic surfaced in its `message` field, while any
envelope whose raw bytes fail to unmarshal — including every failure
envelope produced by the registry, whose raw bytes are empty — yields a
"failed to unmarshal task result: ..." error; the failure envelope's own
diagnostic message is dropped, not surfaced. -/
theorem claim_c3_amended {T : Type} (g : GoJson T) (msg d : String) (v : JVal)
    (r : T) (hdec : g.dec v = .ok r) :
    waitForTaskResult g { result := none, message := msg } =
      .error ("failed to unmarshal task result: " ++ "unexpected end of JSON input") ∧
    waitForTaskResult g
        { result := some (JVal.obj [("result", v), ("message", JVal.str d)]),
          message := msg } =
      .ok { result := r, message := d } := by
  constructor
  · rfl
  · simp [waitForTaskResult, unmarshalAPIResponse, lookupJ, decodeMessageField, hdec]

theorem claim_c3_amended_witness :
    waitForTaskResult boolJson { result := none, message := "Task 5 not found" } =
      .error ("failed to unmarshal task result: " ++ "unexpected end of JSON input") ∧
    waitForTaskResult boolJson
        { result := some (JVal.obj [("result", JVal.bool true),
                                    ("message", JVal.str "remote diagnostic")]),
          message := "m" } =
      .ok { result := true, message := "remote diagnostic" } :=
  claim_c3_amended boolJson "Task 5 not found" "remote diagnostic"
    (JVal.bool true) true rfl

/-- Go map assignment `m[k] = v` on an object's field list: replace the
binding of `k` if present, else append it. -/
def setKey : List (String × JVal) → String → JVal → List (String × JVal)
  | [], k, v => [(k, v)]
  | (k', v') :: rest, k, v =>
      if k' = k then (k, v) :: rest else (k', v') :: setKey rest k v

/-- Embeds `prepareRequestBody` (src/unnamed/part_005): marshal the body and
unmarshal it into `map[string]interface{}` (identity on JSON objects, a
type error on any other JSON value), or start from the empty map for a
nil body; then set `"async_query"` to `true`. -/
def prepareRequestBody (body : Option JVal) :
    Except String (List (String × JVal)) :=
  match body with
  | none => .ok (setKey [] "async_query" (JVal.bool true))
  | some (JVal.obj fs) => .ok (setKey fs "async_query" (JVal.bool true))
  | some _ =>
      .error "failed to unmarshal request body: json: cannot unmarshal value into map"

theorem lookupJ_setKey_self (fs : List (String × JVal)) (k : String) (v : JVal) :
    lookupJ (setKey fs k v) k = some v := by
  induction fs with
  | nil => simp [setKey, lookupJ]
  | cons p rest ih =>
      obtain ⟨k', v'⟩ := p
      by_cases hk : k' = k
      · simp [setKey, hk, lookupJ]
      · simp [setKey, hk, lookupJ, ih]

theorem lookupJ_setKey_other (fs : List (String × JVal)) (k k' : String) (v : JVal)
    (h : k' ≠ k) : lookupJ (setKey fs k v) k' = lookupJ fs k' := by
  induction fs with
  | nil =>
      have hne : ¬ (k = k') := fun hc => h hc.symm
      simp [setKey, lookupJ, hne]
  | cons p rest ih =>
      obtain ⟨k₀, v₀⟩ := p
      by_cases hk : k₀ = k
      · subst hk
        have hne : ¬ (k₀ = k') := fun hc => h hc.symm
        simp [setKey, lookupJ, hne]
      · simp [setKey, hk, lookupJ, ih]

/-- **C10.** For a body whose JSON object already contains the key
`"async_query"` (bound to some value `v`), `prepareRequestBody` succeeds
and silently overwrites that key's value with `true` in the outgoing
body; for a nil body the outgoing body is exactly the single-entry object
`{"async_query": true}`. (Preservation of every other key is
`lookupJ_setKey_other`.) -/
theorem claim_c10_async_query_overwrite (fs : List (String × JVal)) (v : JVal)
    (_h : lookupJ fs "async_query" = some v) :
    prepareRequestBody (some (JVal.obj fs)) =
      .ok (setKey fs "async_query" (JVal.bool true)) ∧
    lookupJ (setKey fs "async_query" (JVal.bool true)) "async_query" =
      some (JVal.bool true) ∧
    prepareRequestBody none = .ok [("async_query", JVal.bool true)] :=
  ⟨rfl, lookupJ_setKey_self fs "async_query" (JVal.bool true), rfl⟩

theorem claim_c10_async_query_overwrite_witness :
    prepareRequestBody (some (JVal.obj [("async_query", JVal.bool false),
                                        ("accounts", JVal.arr [])])) =
      .ok (setKey [("async_query", JVal.bool false), ("accounts", JVal.arr [])]
        "async_query" (JVal.bool true)) ∧
    lookupJ (setKey [("async_query", JVal.bool false), ("accounts", JVal.arr [])]
        "async_query" (JVal.bool true)) "async_query" = some (JVal.bool true) ∧
    prepareRequestBody none = .ok [("async_query", JVal.bool true)] :=
  claim_c10_async_query_overwrite
    [("async_query", JVal.bool false), ("accounts", JVal.arr [])]
    (JVal.bool false) rfl

/-! ### `ExecuteAsync` submission (C6) -/

/-- Embeds `models.AsyncTaskResponse` (src/unnamed/part_007). -/
structure AsyncTaskResponse where
  taskID : Int

/-- The Request Transport (`client.APIClient`), an external collaborator:
each method performs one synchronous HTTP call and either fails at the
transport level or yields a decoded
`models.APIResponse[models.AsyncTaskResponse]`. -/
structure Transport where
  get : List Char → Except String (APIResponse AsyncTaskResponse)
  post : List Char → List (String × JVal) → Except String (APIResponse AsyncTaskResponse)
  put : List Char → List (String × JVal) → Except String (APIResponse AsyncTaskResponse)
  patch : List Char → List (String × JVal) → Except String (APIResponse AsyncTaskResponse)

/-- Embeds `executeHTTPRequest` (src/unnamed/part_005): dispatch the prepared
body-bearing request on the method. -/
def executeHTTPRequest (tr : Transport) (method : String) (endpoint : List Char)
    (requestBody : List (String × JVal)) :
    Except String (APIResponse AsyncTaskResponse) :=
  match method with
  | "POST" => tr.post endpoint requestBody
  | "PUT" => tr.put endpoint requestBody
  | "PATCH" => tr.patch endpoint requestBody
  | _ => .error ("unsupported HTTP method: " ++ method)

/-- The submission phase of `ExecuteAsync` (src/unnamed/part_005): build
the async-marked request (marker in the query string for GET, in the body
for POST/PUT/PATCH), submit it exactly once, and wrap a transport-level
failure in "failed to initiate async request: ..."; a body-preparation
failure is returned unwrapped, an unsupported method is rejected. -/
def ExecuteAsyncSubmit (tr : Transport) (method : String) (endpoint : List Char)
    (body : Option JVal) : Except String (APIResponse AsyncTaskResponse) :=
  match method with
  | "GET" =>
      match tr.get (prepareAsyncEndpoint endpoint) with
      | .error e => .error ("failed to initiate async request: " ++ e)
      | .ok resp => .ok resp
  | "POST" | "PUT" | "PATCH" =>
      match prepareRequestBody body with
      | .error pe => .error pe
      | .ok requestBody =>
          match executeHTTPRequest tr method endpoint requestBody with
          | .error e => .error ("failed to initiate async request: " ++ e)
          | .ok resp => .ok resp
  | _ => .error ("unsupported HTTP method: " ++ method)

/-- Embeds `ExecuteAsync` up to and including task registration: on a successful
submission the returned TaskID is registered with the Task Registry
(inside `waitForTaskResult` via `RegisterTask`); on any submission error
the error is returned at once and the registry state is untouched. -/
def ExecuteAsync (tr : Transport) (method : String) (endpoint : List Char)
    (body : Option JVal) (s : TaskManagerState) :
    Except String Int × TaskManagerState :=
  match ExecuteAsyncSubmit tr method endpoint body with
  | .error e => (.error e, s)
  | .ok resp => (.ok resp.result.taskID, RegisterTask resp.result.taskID s)

/-- **C6.** If the single submission of the prepared async request fails
at the transport level (for any of the supported methods), `ExecuteAsync`
returns the wrapped error immediately and no task is registered: the
registry state — pending map, delivery log and polling flag — is exactly
the state before the call. -/
theorem claim_c6_submit_failure_no_register (tr : Transport) (method : String)
    (endpoint : List Char) (body : Option JVal) (s : TaskManagerState) (e : String)
    (hm : method = "GET" ∨ method = "POST" ∨ method = "PUT" ∨ method = "PATCH")
    (hget : method = "GET" → tr.get (prepareAsyncEndpoint endpoint) = .error e)
    (hwrite : method ≠ "GET" → ∃ rb, prepareRequestBody body = .ok rb ∧
        executeHTTPRequest tr method endpoint rb = .error e) :
    ExecuteAsync tr method endpoint body s =
      (.error ("failed to initiate async request: " ++ e), s) := by
  rcases hm with h | h | h | h
  · subst h
    simp [ExecuteAsync, ExecuteAsyncSubmit, hget rfl]
  all_goals {
    subst h
    obtain ⟨rb, hrb, herr⟩ := hwrite (by decide)
    simp [ExecuteAsync, ExecuteAsyncSubmit, hrb, herr]
  }

/-- A transport whose every call fails with "connection refused". -/
def failTransport : Transport :=
  { get := fun _ => .error "connection refused",
    post := fun _ _ => .error "connection refused",
    put := fun _ _ => .error "connection refused",
    patch := fun _ _ => .error "connection refused" }

theorem claim_c6_submit_failure_no_register_witness :
    ExecuteAsync failTransport "GET" ("/balances".toList) none st₀ =
      (.error ("failed to initiate async request: " ++ "connection refused"), st₀) :=
  claim_c6_submit_failure_no_register failTransport "GET" ("/balances".toList)
    none st₀ "connection refused" (Or.inl rfl) (fun _ => rfl)
    (fun h => absurd rfl h)

/-! ### Poller lifecycle traces (C7)

A sequential trace semantics for the registry: each event is one atomic
operation on the shared state (one poller tick, one registration, one
external stop), which is faithful because every such operation runs under
the registry's mutex. -/

inductive TMEvent : Type where
  | tick (poll : Option (List Int)) (fetch : Int → FetchOutcome) : TMEvent
  | register (t : Int) : TMEvent
  | stopCall : TMEvent

def stepEvent (s : TaskManagerState) : TMEvent → TaskManagerState
  | .tick poll fetch => checkTasks fetch poll s
  | .register t => RegisterTask t s
  | .stopCall => Stop s

def run (s : TaskManagerState) (evs : List TMEvent) : TaskManagerState :=
  evs.foldl stepEvent s

def isRegisterEv : TMEvent → Bool
  | .register _ => true
  | _ => false

/-- Whether a tick started from state `s` issues the poll-list HTTP
request: `checkTasks` calls `tm.client.Get("/tasks", ...)` iff
`activeTasks` is non-empty at the start of the tick. -/
def tickIssuesPoll (s : TaskManagerState) : Bool :=
  !s.activeTasks.isEmpty

/-- Registration-free events keep an empty, non-polling registry empty
and non-polling. -/
theorem run_stays_empty (evs : List TMEvent) :
    ∀ s : TaskManagerState, s.activeTasks = [] → s.pollingActive = false →
      (∀ e ∈ evs, isRegisterEv e = false) →
      (run s evs).activeTasks = [] ∧ (run s evs).pollingActive = false := by
  induction evs with
  | nil => exact fun s hs hp _ => ⟨hs, hp⟩
  | cons e es ih =>
      intro s hs hp h
      have hrest : ∀ e' ∈ es, isRegisterEv e' = false :=
        fun e' h' => h e' (List.mem_cons_of_mem _ h')
      cases e with
      | tick poll fetch =>
          have hck : checkTasks fetch poll s = Stop s := by simp [checkTasks, hs]
          show (run (checkTasks fetch poll s) es).activeTasks = [] ∧
            (run (checkTasks fetch poll s) es).pollingActive = false
          rw [hck]
          exact ih (Stop s) hs rfl hrest
      | register t =>
          have := h (TMEvent.register t) (List.mem_cons_self _ _)
          simp [isRegisterEv] at this
      | stopCall =>
          exact ih (Stop s) hs rfl hrest

/-- **C7.** A tick that observes an empty registry terminates the poll
activity within that tick (`pollingActive` becomes false and the tick
itself issues no poll-list request), and along any registration-free
continuation of the execution no subsequent tick issues a poll-list
request: polling resumes only after a new `RegisterTask`. -/
theorem claim_c7_empty_registry_stops_polling (s : TaskManagerState)
    (poll : Option (List Int)) (fetch : Int → FetchOutcome)
    (evs pre : List TMEvent) (hs : s.activeTasks = [])
    (hnr : ∀ e ∈ evs, isRegisterEv e = false) (hpre : pre <+: evs) :
    (checkTasks fetch poll s).pollingActive = false ∧
    tickIssuesPoll s = false ∧
    tickIssuesPoll (run (checkTasks fetch poll s) pre) = false := by
  have hck : checkTasks fetch poll s = Stop s := by simp [checkTasks, hs]
  have hnr' : ∀ e ∈ pre, isRegisterEv e = false :=
    fun e he => hnr e (hpre.subset he)
  have hr := run_stays_empty pre (Stop s) hs rfl hnr'
  rw [hck]
  exact ⟨rfl, by simp [tickIssuesPoll, hs], by simp [tickIssuesPoll, hr.1]⟩

/-- An empty registry with the poller still marked active (the instant
before it observes the empty registry). -/
def stEmpty : TaskManagerState :=
  { activeTasks := [], delivered := [], pollingActive := true }

def evs₇ : List TMEvent := [TMEvent.stopCall, TMEvent.tick none fetch₀]

theorem claim_c7_empty_registry_stops_polling_witness :
    (checkTasks fetch₀ none stEmpty).pollingActive = false ∧
    tickIssuesPoll stEmpty = false ∧
    tickIssuesPoll (run (checkTasks fetch₀ none stEmpty) evs₇) = false :=
  claim_c7_empty_registry_stops_polling stEmpty none fetch₀ evs₇ evs₇ rfl
    (by
      intro e he
      rcases List.mem_cons.mp he with rfl | he'
      · rfl
      · rcases List.mem_cons.mp he' with rfl | he''
        · rfl
        · cases he'')
    ⟨[], List.append_nil evs₇⟩

/-! ### Concurrent poller model (C8)

An interleaving semantics for `TaskManager` that, unlike the sequential
projection above, tracks the identity of the `stopPolling` channel and
the number of live `pollTasks` goroutines. Every event is one atomic
action justified by the Go code:

* `register t` — the body of `RegisterTask` (runs under `tm.mu`): insert
  the task; if `pollingActive` is false, set it, replace `stopPolling`
  with a fresh channel, and start one more `pollTasks` goroutine.
* `stopCall` — the body of `Stop` (under `tm.mu`): if `pollingActive`,
  close the current `stopPolling` channel and clear the flag.
* `pollerExit` — one live `pollTasks` goroutine's `select` takes the
  `<-tm.stopPolling` branch. The goroutine reads the `stopPolling` field
  afresh at each `select`, so the branch is available only when the
  *current* channel is closed; the goroutine then clears `pollingActive`
  (under `tm.mu`) and dies.
* `pollerTick poll` — one live goroutine's `select` takes the ticker
  branch (a tick arrives every poll interval, so this is always
  eventually available; when the stop channel is also ready Go chooses
  among ready branches nondeterministically) and runs `checkTasks`, whose
  completed-task deliveries are projected to their effect on the pending
  key set.

Events whose guard is not enabled are modelled as no-ops, so every
modelled trace is realizable as a Go interleaving. -/

structure ConcState where
  activeTasks : List Int
  pollingActive : Bool
  curStop : Nat
  nextChan : Nat
  closedChans : List Nat
  pollers : Nat
  pollListRequests : Nat
deriving DecidableEq

/-- Embeds `RegisterTask` under the concurrent model. -/
def cRegisterTask (t : Int) (s : ConcState) : ConcState :=
  let s' := { s with activeTasks :=
    if t ∈ s.activeTasks then s.activeTasks else s.activeTasks ++ [t] }
  if s'.pollingActive then s'
  else
    { s' with
      pollingActive := true,
      curStop := s'.nextChan,
      nextChan := s'.nextChan + 1,
      pollers := s'.pollers + 1 }

/-- Embeds `Stop` under the concurrent model: close the current stop channel
(only once — the `pollingActive` guard prevents a double close). -/
def cStop (s : ConcState) : ConcState :=
  if s.pollingActive then
    { s with closedChans := s.curStop :: s.closedChans, pollingActive := false }
  else s

/-- Embeds `checkTasks` under the concurrent model: an empty registry triggers
`Stop`; otherwise the poll-list request is issued (counted) and, on
success, the reported completed tasks that are pending are delivered and
removed. -/
def cCheckTasks (poll : Option (List Int)) (s : ConcState) : ConcState :=
  if s.activeTasks.isEmpty then cStop s
  else
    match poll with
    | none => { s with pollListRequests := s.pollListRequests + 1 }
    | some completed =>
        { s with
          pollListRequests := s.pollListRequests + 1,
          activeTasks := completed.foldl (fun a t => a.erase t) s.activeTasks }

inductive ConcEvent : Type where
  | register (t : Int) : ConcEvent
  | stopCall : ConcEvent
  | pollerExit : ConcEvent
  | pollerTick (poll : Option (List Int)) : ConcEvent
deriving DecidableEq

def concStep (s : ConcState) : ConcEvent → ConcState
  | .register t => cRegisterTask t s
  | .stopCall => cStop s
  | .pollerExit =>
      if 1 ≤ s.pollers ∧ s.curStop ∈ s.closedChans then
        { s with pollingActive := false, pollers := s.pollers - 1 }
      else s
  | .pollerTick poll => if 1 ≤ s.pollers then cCheckTasks poll s else s

def concRun (s : ConcState) (evs : List ConcEvent) : ConcState :=
  evs.foldl concStep s

/-- Embeds `NewTaskManager`: no tasks, polling inactive, a fresh (open)
`stopPolling` channel, no goroutine. -/
def concInit : ConcState :=
  { activeTasks := [], pollingActive := false, curStop := 0, nextChan := 1,
    closedChans := [], pollers := 0, pollListRequests := 0 }

/-- The racy interleaving: task 1 is registered (poller G1 starts), a
tick delivers it, the next tick observes the empty registry and stops
(closing the stop channel, clearing the flag) — but before G1's next
`select` runs, task 2 is registered: `pollingActive` is false, so a
*second* poller G2 is started while G1 is still alive. G1's next `select`
reads the freshly created (open) stop channel, so G1 keeps ticking
alongside G2. -/
def badTrace : List ConcEvent :=
  [ConcEvent.register 1, ConcEvent.pollerTick (some [1]),
   ConcEvent.pollerTick none, ConcEvent.register 2]

/-- **C8, counterexample.** The start/stop guard does not ensure a single
poll activity: after `badTrace` two `pollTasks` goroutines are alive, and
two further ticks (one per live goroutine) issue two more poll-list
requests — one per goroutine per tick interval. -/
theorem claim_c8_counterexample :
    (concRun concInit badTrace).pollers = 2 ∧
    (concRun concInit (badTrace ++
        [ConcEvent.pollerTick (some []), ConcEvent.pollerTick (some [])])).pollListRequests = 3 := by
  decide

def isTickEv : ConcEvent → Bool
  | .pollerTick _ => true
  | _ => false

def isStopEv : ConcEvent → Bool
  | .stopCall => true
  | _ => false

/-- No tick in the trace starts from an empty registry (so no tick makes
the poller stop itself). -/
def emptyTickSafe (s : ConcState) : List ConcEvent → Bool
  | [] => true
  | e :: rest =>
      ((!isTickEv e) || (!s.activeTasks.isEmpty)) && emptyTickSafe (concStep s e) rest

/-- The single-poller invariant: at most one live poller, and none when
`pollingActive` is false. -/
def pollerInv (s : ConcState) : Prop :=
  s.pollers ≤ 1 ∧ (s.pollingActive = false → s.pollers = 0)

theorem concStep_preserves_pollerInv (s : ConcState) (e : ConcEvent)
    (hinv : pollerInv s) (hstop : isStopEv e = false)
    (hsafe : isTickEv e = true → s.activeTasks.isEmpty = false) :
    pollerInv (concStep s e) := by
  obtain ⟨h1, h2⟩ := hinv
  cases e with
  | register t =>
      cases hsp : s.pollingActive with
      | true =>
          simp only [concStep, cRegisterTask, hsp]
          simp [pollerInv, h1]
      | false =>
          have hz : s.pollers = 0 := h2 hsp
          simp only [concStep, cRegisterTask, hsp]
          simp [pollerInv, hz]
  | stopCall => simp [isStopEv] at hstop
  | pollerExit =>
      by_cases hg : 1 ≤ s.pollers ∧ s.curStop ∈ s.closedChans
      · have hone : s.pollers = 1 := le_antisymm h1 hg.1
        simp only [concStep, if_pos hg]
        simp [pollerInv, hone]
      · simp only [concStep, if_neg hg]
        exact ⟨h1, h2⟩
  | pollerTick poll =>
      have hne : s.activeTasks.isEmpty = false := hsafe rfl
      by_cases hg : 1 ≤ s.pollers
      · simp only [concStep, if_pos hg, cCheckTasks, hne]
        cases poll with
        | none => exact ⟨h1, h2⟩
        | some completed => exact ⟨h1, h2⟩
      · simp only [concStep, if_neg hg]
        exact ⟨h1, h2⟩

theorem concRun_preserves_pollerInv (evs : List ConcEvent) :
    ∀ s : ConcState, pollerInv s →
      (∀ e ∈ evs, isStopEv e = false) → emptyTickSafe s evs = true →
      pollerInv (concRun s evs) := by
  induction evs with
  | nil => exact fun s hinv _ _ => hinv
  | cons e es ih =>
      intro s hinv hstop hsafe
      simp only [emptyTickSafe, Bool.and_eq_true, Bool.or_eq_true] at hsafe
      have hsafe₁ : isTickEv e = true → s.activeTasks.isEmpty = false := by
        intro hte
        rcases hsafe.1 with h | h
        · rw [hte] at h; cases h
        · simpa using h
      have hstep := concStep_preserves_pollerInv s e hinv
        (hstop e (List.mem_cons_self _ _)) hsafe₁
      exact ih (concStep s e) hstep
        (fun e' h' => hstop e' (List.mem_cons_of_mem _ h')) hsafe.2

/-- **C8, amended.** The guard does keep the poll activity unique as long
as no shutdown is signalled mid-trace: along any interleaving in which
external `Stop` is never called and no tick observes an empty registry,
at most one poll activity is ever live. In general the property fails: a
registration racing with a poller that has observed an empty registry (or
an external `Stop`) before that poller's goroutine exits starts a second
live poll activity (see the counterexample). -/
theorem claim_c8_amended (evs : List ConcEvent)
    (hstop : ∀ e ∈ evs, isStopEv e = false)
    (hsafe : emptyTickSafe concInit evs = true) :
    (concRun concInit evs).pollers ≤ 1 :=
  (concRun_preserves_pollerInv evs concInit ⟨by decide, fun _ => rfl⟩
    hstop hsafe).1

def evs₈ : List ConcEvent :=
  [ConcEvent.register 1, ConcEvent.pollerTick (some []),
   ConcEvent.register 2, ConcEvent.pollerTick (some [1]), ConcEvent.pollerExit]

theorem claim_c8_amended_witness :
    (concRun concInit evs₈).pollers ≤ 1 :=
  claim_c8_amended evs₈ (by decide) (by decide)

/-! ### The two snapshot-trigger predicates (C9)

Timestamps are Unix seconds (`Int`); Go's `time.Now()` is passed
explicitly. Go's `int`/`int64` division truncates toward zero, which is
`Int.tdiv`. Calendar days (`Year()/Month()/Day()` equality against
`now.AddDate(0, 0, -1)`) are modelled as UTC civil days,
`Int.fdiv t 86400`. -/

/-- Embeds `utils.HasEnoughTimeElapsed` (src/unnamed/part_002): true iff the
timestamp falls on the calendar day before `now`'s and lies strictly more
than 20 hours (72000 s) in the past. -/
def HasEnoughTimeElapsed (now epochTime : Int) : Bool :=
  (Int.fdiv epochTime 86400 == Int.fdiv now 86400 - 1) &&
    (now - epochTime > 72000)

/-- The trigger decision of `blockchain.PerformSnapshotIfNeeded`
(src/unnamed/part_003): snapshot iff strictly more than the full
`balance_save_frequency` interval has elapsed, or the day-boundary
heuristic `HasEnoughTimeElapsed` holds. -/
def blockchainSnapshotTrigger (lastBalanceSave balanceSaveFrequency now : Int) : Bool :=
  (now - lastBalanceSave > balanceSaveFrequency * 60 * 60) ||
    HasEnoughTimeElapsed now lastBalanceSave

/-- The trigger decision of
`services.BlockchainService.PerformSnapshotIfNeeded`
(src/internal/services/blockchain.go): snapshot iff at least half of the
required interval has elapsed. -/
def servicesSnapshotTrigger (lastBalanceSave balanceSaveFrequency now : Int) : Bool :=
  now - lastBalanceSave ≥ Int.tdiv (balanceSaveFrequency * 3600) 2

/-- **C9.** The two snapshot-trigger implementations disagree: with the
last balance save at time 0, a 24-hour save frequency and current time
50000 s, the services predicate triggers (50000 ≥ 43200 = half interval)
while the blockchain predicate does not (50000 is not greater than the
full interval 86400, and the save is not more than 20 hours old, so the
day-boundary heuristic is false regardless of calendar position). -/
theorem claim_c9_snapshot_triggers_disagree :
    servicesSnapshotTrigger 0 24 50000 = true ∧
    blockchainSnapshotTrigger 0 24 50000 = false ∧
    servicesSnapshotTrigger 0 24 50000 ≠ blockchainSnapshotTrigger 0 24 50000 := by
  decide

end RotkiSync
